import Mathlib

/-!
Shallow embedding of the two scripts of this repository:

* `src/scripts/prepare_training_data.py` — phase (a): concurrent image
  upload pipeline producing a JSONL training corpus.
* `src/scripts/submit_fine_tuning.py` — phase (b): corpus validation,
  remote file staging with timeout, and fine-tuning job monitoring.

Modelling conventions:

* Python ints/floats over positive image dimensions are modelled by exact
  `Nat` arithmetic; `int(h * (m / w))` is exact rational truncation, i.e.
  `h * m / w` with `Nat` floor division.
* Network and filesystem effects are passed in explicitly: the decoded
  image a path yields, the JSON body a POST returns, and the successive
  poll responses of the remote service are inputs of the embedded
  functions.
* Exceptions that a function catches and turns into a sentinel return
  value are modelled by that return value (`Option`, or an explicit
  result constructor).
-/

/-! ## Shared corpus data model

The JSON objects written by `create_training_example` and inspected by
`validate_jsonl` (only the fields either script touches are modelled). -/

/-- Value of an `"image_url"` key inside a content item: a JSON object whose
`"url"` key may be present or absent (its value is never inspected beyond
presence by `validate_jsonl`, and is the hosted URL when written by
`create_training_example`). -/
structure ImageUrlVal where
  url : Option String
deriving DecidableEq

/-- One element of a user message's content list: a JSON object with optional
`"type"`, `"text"` and `"image_url"` keys. -/
structure ContentItem where
  type : Option String
  text : Option String
  image_url : Option ImageUrlVal
deriving DecidableEq

/-- The `"content"` value of a message: a JSON string, a JSON list of content
items, or any other JSON shape (which `validate_jsonl` rejects for the user
message). -/
inductive MsgContent
  | text (s : String)
  | parts (items : List ContentItem)
  | other
deriving DecidableEq

/-- One chat message: a `"role"` string and a `"content"` value. -/
structure Message where
  role : String
  content : MsgContent
deriving DecidableEq

/-- One training example, i.e. one line of the JSONL corpus: an object with a
`"messages"` list. -/
structure TrainingRecord where
  messages : List Message
deriving DecidableEq

/-! ## String helpers

`String.splitOn` and friends do not reduce well in the kernel, so the two
string operations the scripts need are embedded as structural recursion on
character lists. -/

/-- Does `hay` start with `needle`? (Structural helper for substring search.) -/
def charsStartWith : List Char → List Char → Bool
  | _, [] => true
  | [], _ :: _ => false
  | a :: as, b :: bs => (a == b) && charsStartWith as bs

/-- Does `hay` contain `needle` as a contiguous run? -/
def charsContain : List Char → List Char → Bool
  | [], needle => needle.isEmpty
  | a :: t, needle => charsStartWith (a :: t) needle || charsContain t needle

/-- Substring test on strings. -/
def strContains (hay needle : String) : Bool :=
  charsContain hay.data needle.data

/-- Characters after the last path separator, accumulator-style. -/
def basenameAux : List Char → List Char → List Char
  | [], acc => acc.reverse
  | c :: rest, acc =>
    if c = '/' then basenameAux rest [] else basenameAux rest (c :: acc)

/-- `os.path.basename`: the part of the path after the last `'/'`. -/
def basename (p : String) : String :=
  ⟨basenameAux p.data []⟩

/-! ## prepare_training_data.py — categories and image transform -/

/-- The `CATEGORIES` dict: category name paired with its filename pattern, in
insertion order. Each source pattern is a literal followed by `\s+`; the
whitespace class is modelled as the space character, so the match test is
"pattern followed by a space occurs in the filename". -/
def CATEGORIES : List (String × String) :=
  [("Adson brown forceps", "Adson brown"),
   ("Adson smooth forceps", "Adson smooth forceps"),
   ("Jacobson clamp curved", "Extra fine point Jacobson clamp curved"),
   ("Hemostatic clamp curved", "Hemastatclamp curved"),
   ("Jackson right angle clamp", "Jackson right angle clamp"),
   ("Mosquito clamp curved", "MosquitoClampCurved")]

/-- `get_instrument_category`: first pattern (in dict order) whose regex
matches the filename wins; otherwise `"Unknown"`. -/
def get_instrument_category (filename : String) : String :=
  match CATEGORIES.find? (fun c => strContains filename (c.2 ++ " ")) with
  | some c => c.1
  | none => "Unknown"

/-- An in-memory decoded image, identified by its pixel dimensions
(`img.size = (width, height)` in PIL order). -/
structure Img where
  width : Nat
  height : Nat
deriving DecidableEq

/-- Outcome of `resize_image`: the source returns `img.copy()` (an unmodified
copy), `img.resize((w, h))` (a resized image, recorded by its dimensions), or
`None` after its `except` handler catches an exception. -/
inductive ResizeResult
  | copy (img : Img)
  | resized (width height : Nat)
  | failure
deriving DecidableEq

/-- `resize_image`. The argument `decoded` is what `Image.open` yields for the
path: `none` when opening/decoding raises (handler returns `None`).

Branch structure copied from the source:
* `width > height` and `width > max_size`: resize to
  `(max_size, int(height * (max_size / width)))`;
* `width > height` and `width ≤ max_size`: the source assigns neither
  `new_width` nor `new_height` and then calls `img.resize((new_width,
  new_height))`, which raises `UnboundLocalError`; the handler catches it and
  returns `None` — hence `.failure`;
* `width ≤ height` and `height > max_size`: resize to
  `(int(width * (max_size / height)), max_size)`;
* `width ≤ height` and `height ≤ max_size`: return `img.copy()`. -/
def resize_image (decoded : Option Img) (max_size : Nat) : ResizeResult :=
  match decoded with
  | none => ResizeResult.failure
  | some img =>
    if img.width > img.height then
      if img.width > max_size then
        ResizeResult.resized max_size (img.height * max_size / img.width)
      else
        ResizeResult.failure
    else
      if img.height > max_size then
        ResizeResult.resized (img.width * max_size / img.height) max_size
      else
        ResizeResult.copy img

/-! ## prepare_training_data.py — upload worker -/

/-- The JSON body of a 2xx upload response, restricted to the keys
`upload_image` inspects: top-level `"url"`, a `"data"` object with its own
`"url"` (outer `Option` = presence of `"data"`, inner = presence of its
`"url"`), and top-level `"image_url"`. String values only; `none` = key
absent. -/
structure RespBody where
  url : Option String
  dataUrl : Option (Option String)
  image_url : Option String
deriving DecidableEq

/-- Python truthiness of a string field fetched with `.get`: absent (`None`)
and the empty string are falsy. -/
def strTruthy : Option String → Bool
  | none => false
  | some s => !s.isEmpty

/-- URL extraction from a 2xx response body (`upload_image` lines 138–145):
`result.get('url')`, then `result.get('data', {}).get('url')`, then
`result.get('image_url')`; the first truthy value wins, and if none is truthy
the source raises `ValueError`, caught by the enclosing handler — modelled as
`none`. -/
def extract_image_url (result : RespBody) : Option String :=
  let image_url := result.url
  if strTruthy image_url then image_url
  else
    let image_url := result.dataUrl.getD none
    if strTruthy image_url then image_url
    else
      let image_url := result.image_url
      if strTruthy image_url then image_url
      else none

/-- First truthy value of an ordered list of optional fields — the
spec-side formulation of "try multiple known field paths in order". -/
def firstTruthy : List (Option String) → Option String
  | [] => none
  | o :: rest => if strTruthy o then o else firstTruthy rest

/-- External-world inputs of one non-dry-run `upload_image` call: what
`Image.open` yields for the path, and the JSON body the POST returns (`none`
when the request or `raise_for_status` raises). -/
structure UploadEnv where
  decoded : Option Img
  response : Option RespBody
deriving DecidableEq

/-- `upload_image`: in dry-run mode, immediately returns the placeholder URL
built from the basename — before any decode or resize. Otherwise resize
(failure → `None`), POST (network error → `None`), extract the URL
(`ValueError` → `None`). -/
def upload_image (dry_run : Bool) (max_size : Nat) (env : UploadEnv)
    (image_path : String) : Option String :=
  if dry_run then
    some ("http://example.com/images/" ++ basename image_path)
  else
    match resize_image env.decoded max_size with
    | ResizeResult.failure => none
    | _ =>
      match env.response with
      | none => none
      | some result =>
        match extract_image_url result with
        | some u => some u
        | none => none

/-! ## prepare_training_data.py — training examples and the batch loop -/

/-- `create_training_example`: the fixed three-message record, with the
category inferred from the basename of the path. -/
def create_training_example (image_path : String) (image_url : String) :
    TrainingRecord :=
  { messages :=
      [{ role := "system",
         content := MsgContent.text
           "You are a surgical instrument identification assistant. When shown an image of a surgical instrument, identify the type of instrument accurately." },
       { role := "user",
         content := MsgContent.parts
           [{ type := some "text",
              text := some "What is this surgical instrument?",
              image_url := none },
            { type := some "image_url",
              text := none,
              image_url := some { url := some image_url } }] },
       { role := "assistant",
         content := MsgContent.text
           ("This is a " ++ get_instrument_category (basename image_path) ++
            ". It\x27s used in surgical procedures for grasping, clamping, or manipulating tissues.") }] }

/-- What `future.result()` yields for one submitted item: a truthy URL (a
record is appended), a falsy result (`None` / empty — the `if image_url:`
guard skips it), or a re-raised exception (caught by the loop's handler, item
skipped). -/
inductive ItemOutcome
  | url (u : String)
  | noUrl
  | raised
deriving DecidableEq

/-- The collection loop of `process_images` (lines 190–198). The items are
given in submission order: `for future in future_to_image` iterates the dict
of futures in insertion order, which is the order the paths were submitted,
and `future.result()` blocks on each in turn. -/
def process_images : List (String × ItemOutcome) → List TrainingRecord
  | [] => []
  | (path, out) :: rest =>
    match out with
    | ItemOutcome.url u => create_training_example path u :: process_images rest
    | ItemOutcome.noUrl => process_images rest
    | ItemOutcome.raised => process_images rest

/-- The record one item contributes, if any. -/
def mkRecordOpt (x : String × ItemOutcome) : Option TrainingRecord :=
  match x.2 with
  | ItemOutcome.url u => some (create_training_example x.1 u)
  | _ => none

/-- Did the item contribute a record? -/
def isSuccess (x : String × ItemOutcome) : Bool :=
  match x.2 with
  | ItemOutcome.url _ => true
  | _ => false

/-- Hypothetical collection in a given completion order: `completion` lists
item indices in the order their uploads finish, and outcomes are appended as
each completes. (This is what the spec asserts the loop does; the source
instead iterates in submission order.) -/
def collectInCompletionOrder (items : List (String × ItemOutcome))
    (completion : List Nat) : List TrainingRecord :=
  process_images (completion.filterMap (fun i => items[i]?))

/-- The whole batch for given per-path environments: run `upload_image` on
each path and collect the truthy results in submission order. The worker-pool
size bounds concurrency only; it does not affect which records are produced. -/
def run_batch (dry_run : Bool) (max_size : Nat)
    (inputs : List (String × UploadEnv)) : List TrainingRecord :=
  process_images (inputs.map (fun pe =>
    (pe.1,
      match upload_image dry_run max_size pe.2 pe.1 with
      | some u => if u.isEmpty then ItemOutcome.noUrl else ItemOutcome.url u
      | none => ItemOutcome.noUrl)))

/-! ## submit_fine_tuning.py — corpus validation -/

/-- One line of the JSONL file as `validate_jsonl` sees it after
`json.loads`: invalid JSON, a JSON value with no usable `"messages"` list
(missing key, or a non-list value — both rejected), or an object with a
`"messages"` list. Each message is assumed to carry a `"role"` string (the
validator indexes `msg["role"]` unconditionally, so these are the inputs on
which it runs to completion). -/
inductive Line
  | invalidJson
  | noMessages
  | messagesNotList
  | record (messages : List Message)
deriving DecidableEq

/-- Is a content item's `"image_url"` value well-formed, i.e. the
`"image_url"` key present and its object containing a `"url"` key?
(`validate_jsonl` line 114.) -/
def wellFormedImageItem (it : ContentItem) : Bool :=
  match it.image_url with
  | some payload => payload.url.isSome
  | none => false

/-- Per-line body of the `validate_jsonl` loop (lines 77–131). An early
`return False` is modelled as the value `false`; the non-system first-message
check (line 91) only prints a warning and therefore does not appear. The user
message checked is the first one (`for msg in messages: ... break`), every
item of its content whose `"type"` is `"image_url"` must be well-formed, at
least one such item must exist, and some assistant message must exist. -/
def validateLine (ln : Line) : Bool :=
  match ln with
  | Line.invalidJson => false
  | Line.noMessages => false
  | Line.messagesNotList => false
  | Line.record msgs =>
    if msgs.length < 2 then false
    else
      match msgs.find? (fun m => m.role == "user") with
      | none => false
      | some user_message =>
        match user_message.content with
        | MsgContent.parts items =>
          if items.any (fun it =>
              it.type == some "image_url" && !wellFormedImageItem it) then
            false
          else if !items.any (fun it => it.type == some "image_url") then
            false
          else
            match msgs.find? (fun m => m.role == "assistant") with
            | none => false
            | some _ => true
        | _ => false

/-- `validate_jsonl`: an empty file (`if not lines`) fails; otherwise the
file passes exactly when every line passes (the loop returns `False` at the
first bad line, `True` after the last). -/
def validate_jsonl (lines : List Line) : Bool :=
  if lines.isEmpty then false else lines.all validateLine

/-- Start of phase (b)'s `main`: validation runs first and exits the process
before `upload_file` — the first network interaction — is ever reached. -/
inductive PhaseBGateResult
  | exitValidation
  | reachedUpload
deriving DecidableEq

/-- The validation gate of `main` (lines 263–265): a failed `validate_jsonl`
exits before any network call. -/
def phase_b_gate (trainingLines : List Line) : PhaseBGateResult :=
  if validate_jsonl trainingLines then PhaseBGateResult.reachedUpload
  else PhaseBGateResult.exitValidation

/-! ## submit_fine_tuning.py — file-processing wait -/

/-- One observation of the staged file: the status query raised (caught at
line 181, treated as still waiting), or it returned a status string. -/
inductive FilePoll
  | queryFailure
  | status (s : String)
deriving DecidableEq

/-- Result of `wait_for_file_processing`: `True` on `processed`, `False` on
`error`, or `False` after the while-condition fails — the timeout, recorded
with the elapsed time at which the condition was re-checked. -/
inductive WaitResult
  | processed
  | fileError
  | timedOut (elapsed : Nat)
deriving DecidableEq

/-- `wait_for_file_processing` (lines 164–186). `polls` lists the successive
observations together with the time each status query itself took; every
iteration additionally sleeps 5 seconds (both on a non-terminal status and on
a query failure). `elapsed` is the time already spent when the `while`
condition is checked. `none` means the observed prefix ran out while the loop
was still waiting. -/
def wait_for_file_processing (timeout : Nat) :
    List (FilePoll × Nat) → Nat → Option WaitResult
  | [], elapsed =>
    if elapsed < timeout then none
    else some (WaitResult.timedOut elapsed)
  | (p, qt) :: rest, elapsed =>
    if elapsed < timeout then
      match p with
      | FilePoll.status s =>
        if s = "processed" then some WaitResult.processed
        else if s = "error" then some WaitResult.fileError
        else wait_for_file_processing timeout rest (elapsed + qt + 5)
      | FilePoll.queryFailure =>
        wait_for_file_processing timeout rest (elapsed + qt + 5)
    else some (WaitResult.timedOut elapsed)

/-! ## submit_fine_tuning.py — job monitoring -/

/-- One observation of the fine-tuning job: the status query raised (caught
at line 246, loop continues after the sleep), or it returned a status string
together with the job's `fine_tuned_model` field. -/
inductive JobPoll
  | queryFailure
  | status (s : String) (fine_tuned_model : Option String)
deriving DecidableEq

/-- Terminal outcome of `monitor_fine_tuning_job`: the source returns `True`
after printing the fine-tuned model identifier (the success outcome carries
that surfaced identifier here), or returns `False` after printing the
terminal status `failed` or `cancelled`. -/
inductive MonitorOutcome
  | succeeded (modelId : Option String)
  | failed (status : String)
deriving DecidableEq

/-- `monitor_fine_tuning_job` (lines 216–248) run against the successive poll
observations. The loop is `while True` with no timeout: it only stops on a
terminal status, so exhausting the observed prefix without one yields `none`
(still polling). On success the result also counts how many polls were
consumed. -/
def monitor_fine_tuning_job : List JobPoll → Option (MonitorOutcome × Nat)
  | [] => none
  | p :: rest =>
    match p with
    | JobPoll.queryFailure =>
      (monitor_fine_tuning_job rest).map (fun pr => (pr.1, pr.2 + 1))
    | JobPoll.status s m =>
      if s = "succeeded" then some (MonitorOutcome.succeeded m, 1)
      else if s = "failed" ∨ s = "cancelled" then some (MonitorOutcome.failed s, 1)
      else (monitor_fine_tuning_job rest).map (fun pr => (pr.1, pr.2 + 1))

/-! ## Spec-side predicates and concrete fixtures for the claims -/

/-- The acceptance condition claimed for `validate_jsonl` (claim as stated):
the messages list has at least 2 entries, SOME user message has a list
content containing at least one well-formed `image_url` item, and some
assistant message exists. -/
def claimLineOk (ln : Line) : Bool :=
  match ln with
  | Line.record msgs =>
    decide (2 ≤ msgs.length) &&
    msgs.any (fun m =>
      m.role == "user" &&
      (match m.content with
       | MsgContent.parts items =>
         items.any (fun it =>
           it.type == some "image_url" && wellFormedImageItem it)
       | _ => false)) &&
    msgs.any (fun m => m.role == "assistant")
  | _ => false

/-- The amended acceptance condition: the messages list has at least 2
entries, the FIRST user message has a list content in which at least one item
has type `image_url` and EVERY item of type `image_url` is well-formed, and
some assistant message exists. (The first message's role is unconstrained: a
non-system first message only triggers a warning.) -/
def amendedLineOk (ln : Line) : Bool :=
  match ln with
  | Line.record msgs =>
    decide (2 ≤ msgs.length) &&
    (match msgs.find? (fun m => m.role == "user") with
     | some um =>
       match um.content with
       | MsgContent.parts items =>
         items.any (fun it => it.type == some "image_url") &&
         items.all (fun it =>
           !(it.type == some "image_url") || wellFormedImageItem it)
       | _ => false
     | none => false) &&
    msgs.any (fun m => m.role == "assistant")
  | _ => false

/-- A content item of type `image_url` with a well-formed payload. -/
def goodImgItem : ContentItem :=
  { type := some "image_url", text := none,
    image_url := some { url := some "http://host/1.jpg" } }

/-- A content item of type `image_url` whose `"image_url"` key is missing. -/
def badImgItem : ContentItem :=
  { type := some "image_url", text := none, image_url := none }

/-- A minimal system message. -/
def sysMsg : Message := { role := "system", content := MsgContent.text "s" }

/-- A minimal assistant message. -/
def asstMsg : Message := { role := "assistant", content := MsgContent.text "a" }

/-- A line satisfying the claim as stated (its user message has a well-formed
`image_url` item) that the validator nevertheless rejects: the same content
list also holds a malformed `image_url` item, and the validator requires
every `image_url`-typed item to be well-formed. -/
def lineA : Line :=
  Line.record
    [sysMsg,
     { role := "user", content := MsgContent.parts [goodImgItem, badImgItem] },
     asstMsg]

/-- A line satisfying the claim as stated (its second user message has a
well-formed `image_url` item) that the validator nevertheless rejects: the
validator only inspects the first user message, whose content here is a plain
string. -/
def lineB : Line :=
  Line.record
    [sysMsg,
     { role := "user", content := MsgContent.text "hi" },
     { role := "user", content := MsgContent.parts [goodImgItem] },
     asstMsg]

/-- A line whose first message is a (non-system) user message with one
well-formed image item, followed by an assistant message. -/
def lineW : Line :=
  Line.record
    [{ role := "user", content := MsgContent.parts [goodImgItem] }, asstMsg]

/-- The three dry-run scenario inputs: three image paths of which the second
fails to decode (`Image.open` raises, modelled by `decoded := none`). No
upload responses are involved in dry-run mode. -/
def c2_inputs : List (String × UploadEnv) :=
  [("photos/Adson brown 1.jpg",
    { decoded := some { width := 3000, height := 2000 }, response := none }),
   ("photos/broken.png", { decoded := none, response := none }),
   ("photos/MosquitoClampCurved 2.jpg",
    { decoded := some { width := 100, height := 200 }, response := none })]

/-- Two submitted items that both upload successfully, with distinct URLs. -/
def c4_items : List (String × ItemOutcome) :=
  [("a.jpg", ItemOutcome.url "http://host/a"),
   ("b.jpg", ItemOutcome.url "http://host/b")]

/-- The stub poll sequence of the job-monitor scenario: `queued`, `running`,
then `succeeded` carrying model id `"m-123"`. -/
def stubPolls : List JobPoll :=
  [JobPoll.status "queued" none,
   JobPoll.status "running" none,
   JobPoll.status "succeeded" (some "m-123")]

/-! ## Theorems for the claims -/

/-- Claim C1 (code bug evidence): a landscape image already within the
bound is NOT returned as an unmodified copy. For a 2×1 image with `M = 10`
(longer side 2 ≤ 10), `resize_image` takes the `width > height`,
`width ≤ max_size` branch, where the source assigns neither `new_width` nor
`new_height`; the following `img.resize` raises `UnboundLocalError` and the
handler returns `None` — a failure. The portrait and square cases (1×2 and
3×3 with `M = 10`) do return the unmodified copy, which shows the fast path
is the intent and the landscape branch a slip. -/
theorem resize_small_landscape_fails :
    resize_image (some { width := 2, height := 1 }) 10 = ResizeResult.failure ∧
    resize_image (some { width := 1, height := 2 }) 10
      = ResizeResult.copy { width := 1, height := 2 } ∧
    resize_image (some { width := 3, height := 3 }) 10
      = ResizeResult.copy { width := 3, height := 3 } := by
  decide

/-- Claim C2 (counterexample): in dry-run mode, a decode failure does NOT
remove its item from the Corpus. On the scenario's 3 paths of which the
second fails to decode, the dry-run batch yields 3 records, not 2:
`upload_image` returns the placeholder URL before ever touching the image, so
the failing decode is never reached. -/
theorem dry_run_decode_failure_not_dropped :
    (run_batch true 1024 c2_inputs).length ≠ 2 ∧
    (run_batch true 1024 c2_inputs).length = 3 := by
  decide

/-- Claim C2 (amended): on 3 image paths of which 1 fails to decode, the
dry-run batch produces a Corpus with exactly 3 records — one per input path,
each containing the placeholder URL derived from its filename — because
dry-run mode skips decoding entirely. -/
theorem dry_run_three_placeholder_records :
    run_batch true 1024 c2_inputs =
      [create_training_example "photos/Adson brown 1.jpg"
         "http://example.com/images/Adson brown 1.jpg",
       create_training_example "photos/broken.png"
         "http://example.com/images/broken.png",
       create_training_example "photos/MosquitoClampCurved 2.jpg"
         "http://example.com/images/MosquitoClampCurved 2.jpg"] := by
  decide

/-- Claim C3: for N submitted items of which K fail (upload returned a falsy
result or raised), the batch never aborts — `process_images` is total and
yields exactly N − K records; when all items fail the result is the empty
Corpus, not an error. -/
theorem process_images_drops_failures :
    ∀ items : List (String × ItemOutcome),
      (process_images items).length
          + (items.filter (fun x => !isSuccess x)).length = items.length ∧
      (process_images items).length
          = items.length - (items.filter (fun x => !isSuccess x)).length ∧
      ((items.filter (fun x => !isSuccess x)).length = items.length →
        process_images items = []) := by
  have key : ∀ l : List (String × ItemOutcome),
      (process_images l).length
        + (l.filter (fun x => !isSuccess x)).length = l.length := by
    intro l
    induction l with
    | nil => rfl
    | cons x rest ih =>
      obtain ⟨p, o⟩ := x
      cases o with
      | url u =>
        have hf : List.filter (fun x => !isSuccess x) ((p, ItemOutcome.url u) :: rest)
            = List.filter (fun x => !isSuccess x) rest := by
          rw [List.filter_cons]
          simp [isSuccess]
        simp only [process_images, hf, List.length_cons]
        omega
      | noUrl =>
        have hf : List.filter (fun x => !isSuccess x) ((p, ItemOutcome.noUrl) :: rest)
            = (p, ItemOutcome.noUrl) :: List.filter (fun x => !isSuccess x) rest := by
          rw [List.filter_cons]
          simp [isSuccess]
        simp only [process_images, hf, List.length_cons]
        omega
      | raised =>
        have hf : List.filter (fun x => !isSuccess x) ((p, ItemOutcome.raised) :: rest)
            = (p, ItemOutcome.raised) :: List.filter (fun x => !isSuccess x) rest := by
          rw [List.filter_cons]
          simp [isSuccess]
        simp only [process_images, hf, List.length_cons]
        omega
  intro items
  refine ⟨key items, by have := key items; omega, ?_⟩
  intro hK
  have := key items
  have hlen : (process_images items).length = 0 := by omega
  exact List.length_eq_zero.mp hlen

/-- Claim C3 (witness): a 2-item batch in which both items fail yields the
empty Corpus. -/
theorem process_images_drops_failures_witness :
    process_images [("a.jpg", ItemOutcome.noUrl), ("b.jpg", ItemOutcome.raised)]
      = [] :=
  (process_images_drops_failures
    [("a.jpg", ItemOutcome.noUrl), ("b.jpg", ItemOutcome.raised)]).2.2 (by decide)

/-- Claim C4 (counterexample): the output Corpus does NOT follow completion
order. With two successful items and a completion order in which the second
upload finishes first, collecting in completion order would list the records
reversed, but the source's loop iterates the futures dict in submission order
and blocks on each, so the Corpus differs from the completion-ordered one. -/
theorem corpus_not_completion_order :
    process_images c4_items ≠ collectInCompletionOrder c4_items [1, 0] := by
  decide

/-- Claim C4 (amended): the order of TrainingRecords in the output Corpus is
the submission (input) order of the image paths with failed items dropped —
`for future in future_to_image` iterates the futures in the order they were
submitted and `future.result()` blocks on each in turn, independently of
completion order. -/
theorem corpus_in_submission_order :
    ∀ items : List (String × ItemOutcome),
      process_images items = items.filterMap mkRecordOpt := by
  intro items
  induction items with
  | nil => rfl
  | cons x rest ih =>
    obtain ⟨p, o⟩ := x
    cases o <;> simp [process_images, mkRecordOpt, List.filterMap_cons, ih]

/-- Claim C9: `validate_jsonl` rejects a zero-line corpus file, and phase
(b)'s main exits at the validation gate — before `upload_file`, its first
network call — even though phase (a) produces exactly such an empty Corpus
from an all-failures batch. -/
theorem empty_corpus_rejected :
    validate_jsonl [] = false ∧
    phase_b_gate [] = PhaseBGateResult.exitValidation ∧
    process_images
        [("photos/x.jpg", ItemOutcome.noUrl),
         ("photos/y.jpg", ItemOutcome.raised)] = [] := by
  decide

/-- Claim C5: for every image whose longer side exceeds `M` (`M` positive),
`resize_image` resizes: the output's longer side equals exactly `M` and its
shorter side is the input's shorter side scaled by `M` over the longer side,
truncated to an integer (`int(...)` on a positive value is the floor). -/
theorem resize_image_shrinks_to_max :
    ∀ (img : Img) (M : Nat), 0 < M → M < max img.width img.height →
      ∃ w h, resize_image (some img) M = ResizeResult.resized w h ∧
        max w h = M ∧
        min w h = min img.width img.height * M / max img.width img.height := by
  intro img M hM hbig
  by_cases hwh : img.height < img.width
  · have hw : M < img.width := by omega
    have hle : img.height * M / img.width ≤ M := by
      calc img.height * M / img.width
          ≤ img.width * M / img.width :=
            Nat.div_le_div_right (Nat.mul_le_mul_right M (Nat.le_of_lt hwh))
        _ = M := Nat.mul_div_cancel_left M (by omega)
    refine ⟨M, img.height * M / img.width, ?_, by omega, ?_⟩
    · simp only [resize_image]
      rw [if_pos hwh, if_pos hw]
    · have h1 : min img.width img.height = img.height := by omega
      have h2 : max img.width img.height = img.width := by omega
      rw [h1, h2]
      omega
  · have hh : M < img.height := by omega
    have hle : img.width * M / img.height ≤ M := by
      calc img.width * M / img.height
          ≤ img.height * M / img.height :=
            Nat.div_le_div_right (Nat.mul_le_mul_right M (by omega))
        _ = M := Nat.mul_div_cancel_left M (by omega)
    refine ⟨img.width * M / img.height, M, ?_, by omega, ?_⟩
    · simp only [resize_image]
      rw [if_neg hwh, if_pos hh]
    · have h1 : min img.width img.height = img.width := by omega
      have h2 : max img.width img.height = img.height := by omega
      rw [h1, h2]
      omega

/-- Claim C5 (witness): a 4×2 image with `M = 2` is resized to 2×1 — longer
side exactly 2, shorter side `⌊2·2/4⌋ = 1`. -/
theorem resize_image_shrinks_to_max_witness :
    ∃ w h, resize_image (some { width := 4, height := 2 }) 2
        = ResizeResult.resized w h ∧
      max w h = 2 ∧ min w h = min 4 2 * 2 / max 4 2 :=
  resize_image_shrinks_to_max { width := 4, height := 2 } 2 (by decide) (by decide)

/-- Claim C8: on a 2xx response body, the Upload Worker tries the field paths
in the fixed order top-level `url`, nested `data.url`, top-level `image_url`,
returns the first truthy (present and non-empty) value, fails only when all
three are missing or empty, and such a response-shape failure is a per-item
`None` from `upload_image`, not an abort. -/
theorem extract_url_field_order :
    (∀ r : RespBody,
      extract_image_url r
        = firstTruthy [r.url, r.dataUrl.getD none, r.image_url]) ∧
    (∀ r : RespBody,
      (extract_image_url r = none ↔
        (strTruthy r.url = false ∧ strTruthy (r.dataUrl.getD none) = false ∧
         strTruthy r.image_url = false))) ∧
    (∀ (img : Img) (body : RespBody) (path : String) (M : Nat),
      resize_image (some img) M ≠ ResizeResult.failure →
      upload_image false M { decoded := some img, response := some body } path
        = extract_image_url body) := by
  refine ⟨fun r => rfl, ?_, ?_⟩
  · intro r
    unfold extract_image_url
    constructor
    · intro hnone
      by_cases h1 : strTruthy r.url
      · rw [if_pos h1] at hnone
        simp [strTruthy] at hnone h1
        simp [hnone] at h1
      · rw [if_neg h1] at hnone
        by_cases h2 : strTruthy (r.dataUrl.getD none)
        · rw [if_pos h2] at hnone
          simp [strTruthy] at hnone h2
          simp [hnone] at h2
        · rw [if_neg h2] at hnone
          by_cases h3 : strTruthy r.image_url
          · rw [if_pos h3] at hnone
            simp [strTruthy] at hnone h3
            simp [hnone] at h3
          · exact ⟨by simpa using h1, by simpa using h2, by simpa using h3⟩
    · rintro ⟨h1, h2, h3⟩
      rw [if_neg (by simp [h1]), if_neg (by simp [h2]), if_neg (by simp [h3])]
  · intro img body path M hres
    unfold upload_image
    rw [if_neg (by simp)]
    cases hr : resize_image (some img) M with
    | copy i2 => cases hx : extract_image_url body <;> simp [hx]
    | resized w2 h2 => cases hx : extract_image_url body <;> simp [hx]
    | failure => exact absurd hr hres

/-- Claim C8 (witness): with a decodable image and a 2xx body having none of
the three URL fields, `upload_image` returns the extraction result — the
per-item failure `none`. -/
theorem extract_url_field_order_witness :
    upload_image false 10
        { decoded := some { width := 1, height := 2 },
          response := some { url := none, dataUrl := none, image_url := none } }
        "photos/p.jpg"
      = extract_image_url { url := none, dataUrl := none, image_url := none } :=
  extract_url_field_order.2.2 { width := 1, height := 2 }
    { url := none, dataUrl := none, image_url := none } "photos/p.jpg" 10
    (by decide)

/-- Claim C6: the job monitor returns the success outcome carrying the
surfaced fine-tuned model identifier exactly on status `succeeded` (after a
single poll from that observation), the failure outcome exactly on `failed`
or `cancelled`, keeps polling on every other status and on query failures,
never gives up on its own (any run of query failures leaves it still
polling), and on the stub sequence `queued`, `running`, `succeeded("m-123")`
terminates successfully with model id `"m-123"` after exactly 3 polls. -/
theorem monitor_job_lifecycle :
    monitor_fine_tuning_job stubPolls
        = some (MonitorOutcome.succeeded (some "m-123"), 3) ∧
    (∀ (rest : List JobPoll) (m : Option String),
      monitor_fine_tuning_job (JobPoll.status "succeeded" m :: rest)
        = some (MonitorOutcome.succeeded m, 1)) ∧
    (∀ (rest : List JobPoll) (m : Option String) (s : String),
      s = "failed" ∨ s = "cancelled" →
      monitor_fine_tuning_job (JobPoll.status s m :: rest)
        = some (MonitorOutcome.failed s, 1)) ∧
    (∀ (rest : List JobPoll) (s : String) (m : Option String),
      s ≠ "succeeded" → s ≠ "failed" → s ≠ "cancelled" →
      monitor_fine_tuning_job (JobPoll.status s m :: rest)
        = (monitor_fine_tuning_job rest).map (fun pr => (pr.1, pr.2 + 1))) ∧
    (∀ rest : List JobPoll,
      monitor_fine_tuning_job (JobPoll.queryFailure :: rest)
        = (monitor_fine_tuning_job rest).map (fun pr => (pr.1, pr.2 + 1))) ∧
    (∀ n : Nat,
      monitor_fine_tuning_job (List.replicate n JobPoll.queryFailure) = none) := by
  refine ⟨by decide, ?_, ?_, ?_, fun rest => rfl, ?_⟩
  · intro rest m
    simp [monitor_fine_tuning_job]
  · rintro rest m s (rfl | rfl) <;> simp [monitor_fine_tuning_job]
  · intro rest s m h1 h2 h3
    simp only [monitor_fine_tuning_job]
    rw [if_neg h1, if_neg (by rintro (h | h) <;> [exact h2 h; exact h3 h])]
  · intro n
    induction n with
    | zero => rfl
    | succ k ih => simp [List.replicate, monitor_fine_tuning_job, ih]

/-- Claim C6 (witness): a single observed `cancelled` status terminates with
the failure outcome after exactly one poll. -/
theorem monitor_job_lifecycle_witness :
    monitor_fine_tuning_job [JobPoll.status "cancelled" none]
      = some (MonitorOutcome.failed "cancelled", 1) :=
  monitor_job_lifecycle.2.2.1 [] none "cancelled" (Or.inr rfl)

/-- Claim C7: if the observed file status never leaves `pending` (with
transient query failures treated as still-waiting: they take the same
5-second sleep and continue the loop), then the wait can only end in the
timeout failure, and it does so at an elapsed time at or after the configured
timeout, never before; and once the observed prefix spans the timeout (each
iteration adds at least the 5-second sleep), it definitely ends in that
timeout failure. -/
theorem wait_pending_times_out :
    ∀ (timeout : Nat) (polls : List (FilePoll × Nat)) (elapsed : Nat),
      (∀ pq ∈ polls,
        pq.1 = FilePoll.queryFailure ∨ pq.1 = FilePoll.status "pending") →
      (∀ r, wait_for_file_processing timeout polls elapsed = some r →
        ∃ e, r = WaitResult.timedOut e ∧ timeout ≤ e) ∧
      (timeout ≤ 5 * polls.length + elapsed →
        ∃ e, wait_for_file_processing timeout polls elapsed
            = some (WaitResult.timedOut e) ∧ timeout ≤ e) := by
  intro timeout polls
  induction polls with
  | nil =>
    intro elapsed _
    by_cases hlt : elapsed < timeout
    · constructor
      · intro r hr
        simp only [wait_for_file_processing, if_pos hlt] at hr
        exact Option.noConfusion hr
      · intro hle
        simp only [List.length_nil] at hle
        omega
    · constructor
      · intro r hr
        simp only [wait_for_file_processing, if_neg hlt, Option.some.injEq] at hr
        exact ⟨elapsed, hr.symm, by omega⟩
      · intro _
        refine ⟨elapsed, ?_, by omega⟩
        simp only [wait_for_file_processing, if_neg hlt]
  | cons pq rest ih =>
    intro elapsed hmem
    obtain ⟨p, qt⟩ := pq
    have hp : p = FilePoll.queryFailure ∨ p = FilePoll.status "pending" :=
      hmem (p, qt) (List.mem_cons_self _ _)
    have hrest := fun x hx => hmem x (List.mem_cons_of_mem _ hx)
    by_cases hlt : elapsed < timeout
    · have hred : wait_for_file_processing timeout ((p, qt) :: rest) elapsed
          = wait_for_file_processing timeout rest (elapsed + qt + 5) := by
        rcases hp with h | h <;> subst h <;>
          simp [wait_for_file_processing, if_pos hlt]
      rw [hred]
      obtain ⟨ih1, ih2⟩ := ih (elapsed + qt + 5) hrest
      refine ⟨ih1, fun hle => ih2 ?_⟩
      simp only [List.length_cons] at hle
      omega
    · have hred : wait_for_file_processing timeout ((p, qt) :: rest) elapsed
          = some (WaitResult.timedOut elapsed) := by
        simp [wait_for_file_processing, if_neg hlt]
      rw [hred]
      constructor
      · intro r hr
        simp only [Option.some.injEq] at hr
        exact ⟨elapsed, hr.symm, by omega⟩
      · intro _
        exact ⟨elapsed, rfl, by omega⟩

/-- Claim C7 (witness): with the default 600-second timeout and a status that
stays `pending` across 120 polls (each adding the 5-second interval), the
wait ends in the timeout failure at an elapsed time of at least 600. -/
theorem wait_pending_times_out_witness :
    ∃ e, wait_for_file_processing 600
          (List.replicate 120 (FilePoll.status "pending", 0)) 0
        = some (WaitResult.timedOut e) ∧ 600 ≤ e :=
  (wait_pending_times_out 600 (List.replicate 120 (FilePoll.status "pending", 0)) 0
    (by
      intro pq hpq
      rw [List.eq_of_mem_replicate hpq]
      exact Or.inr rfl)).2
    (by simp)

/-- Helper for claim C10: "every `image_url`-typed item is well-formed" is the
complement of "some `image_url`-typed item is malformed". -/
theorem all_wf_eq_not_any_malformed (items : List ContentItem) :
    items.all (fun it => !(it.type == some "image_url") || wellFormedImageItem it)
      = !items.any (fun it => it.type == some "image_url" && !wellFormedImageItem it) := by
  induction items with
  | nil => rfl
  | cons a t ih =>
    simp only [List.all_cons, List.any_cons, ih, Bool.not_or]
    cases h1 : (a.type == some "image_url") <;>
      cases h2 : wellFormedImageItem a <;> simp

/-- Helper for claim C10: the validator's search for a message of a given
role succeeds exactly when some message has that role. -/
theorem find_role_match_eq_any (msgs : List Message) (p : Message → Bool) :
    (match msgs.find? p with | none => false | some _ => true) = msgs.any p := by
  induction msgs with
  | nil => rfl
  | cons m t ih =>
    rw [List.find?_cons, List.any_cons]
    cases hp : p m <;> simp [ih]

/-- Helper for claim C10: the per-line validator accepts exactly the lines
satisfying the amended acceptance condition. -/
theorem validateLine_eq_amended :
    ∀ ln : Line, validateLine ln = amendedLineOk ln := by
  intro ln
  cases ln with
  | invalidJson => rfl
  | noMessages => rfl
  | messagesNotList => rfl
  | record msgs =>
    simp only [validateLine, amendedLineOk]
    by_cases hlen : msgs.length < 2
    · rw [if_pos hlen]
      have hd : decide (2 ≤ msgs.length) = false := by
        simp only [decide_eq_false_iff_not]
        omega
      rw [hd]
      simp
    · rw [if_neg hlen]
      have hd : decide (2 ≤ msgs.length) = true := by
        simp only [decide_eq_true_eq]
        omega
      rw [hd, Bool.true_and]
      cases hfu : msgs.find? (fun m => m.role == "user") with
      | none => simp
      | some um =>
        cases hc : um.content with
        | text s => simp [hc]
        | other => simp [hc]
        | parts items =>
          simp only [hc]
          rw [all_wf_eq_not_any_malformed items]
          cases hfa : msgs.find? (fun m => m.role == "assistant") with
          | none =>
            have ha : (msgs.any fun m => m.role == "assistant") = false := by
              rw [List.any_eq_false]
              intro x hx
              simpa using List.find?_eq_none.mp hfa x hx
            rw [ha]
            cases hB : items.any
                (fun it => it.type == some "image_url" && !wellFormedImageItem it) <;>
              cases hA : items.any (fun it => it.type == some "image_url") <;>
                simp [hA, hB]
          | some am =>
            have ha : (msgs.any fun m => m.role == "assistant") = true := by
              rw [List.any_eq_true]
              have hpa := List.find?_some hfa
              exact ⟨am, List.mem_of_find?_eq_some hfa, hpa⟩
            rw [ha]
            cases hB : items.any
                (fun it => it.type == some "image_url" && !wellFormedImageItem it) <;>
              cases hA : items.any (fun it => it.type == some "image_url") <;>
                simp [hA, hB]

/-- Claim C10 (counterexample): two lines that satisfy the claim as stated —
valid JSON, a `messages` list of at least 2 entries, some user message whose
list content holds at least one well-formed `image_url` item, and some
assistant message — yet are rejected by `validate_jsonl`. `lineA`'s user
content also holds a malformed `image_url` item (the validator demands every
`image_url`-typed item be well-formed); `lineB`'s image-bearing user message
is not the first user message (the validator only inspects the first). -/
theorem validate_jsonl_strict_counterexample :
    claimLineOk lineA = true ∧ validate_jsonl [lineA] = false ∧
    claimLineOk lineB = true ∧ validate_jsonl [lineB] = false := by
  decide

/-- Claim C10 (amended): `validate_jsonl` returns success for any nonempty
file whose every line is valid JSON with a `messages` list of at least 2
entries, whose FIRST user message has list content containing at least one
`image_url`-typed item with EVERY `image_url`-typed item well-formed, and
which contains some assistant message; a first message whose role is not
`system` only produces a warning and does not cause validation to fail. -/
theorem validate_jsonl_accepts_wellformed :
    ∀ lines : List Line, lines ≠ [] →
      (∀ ln ∈ lines, amendedLineOk ln = true) →
      validate_jsonl lines = true := by
  intro lines hne hall
  unfold validate_jsonl
  rw [if_neg (by simpa using hne)]
  rw [List.all_eq_true]
  intro ln hln
  rw [validateLine_eq_amended]
  exact hall ln hln

/-- Claim C10 (amended, witness): a one-line file whose first message is a
non-system user message with one well-formed image item, followed by an
assistant message, validates successfully. -/
theorem validate_jsonl_accepts_wellformed_witness :
    validate_jsonl [lineW] = true :=
  validate_jsonl_accepts_wellformed [lineW] (by decide) (by decide)
